import Mathlib

/-
Shallow embedding of the avatar-cache system of the kvrocks-website repository.

The system has two halves, both embedded here from the source:

* the batch reconciler `scripts/download-avatars.js` (shipped inside
  `scripts/cron-download-avatars.sh`): `shouldDownloadAvatar`,
  `downloadAvatars`, `downloadFile`;
* the client-side avatar service (`AvatarService`): `needsRefresh`,
  `getAvatarUrl`, `downloadAvatar`, `checkAndUpdateAvatars`.

Timestamps are JS epoch-millisecond numbers, embedded as `Int`.  JS truthiness
of a numeric field (`!avatarMeta.lastUpdated`, `metadata.lastCheck && ...`,
`x || Date.now()`) treats both a missing field and the number `0` as falsy;
the embedding keeps that behaviour explicit via `jsTruthy` / `jsOrNow`.
The filesystem and the JSON metadata objects are embedded as association
lists from string keys; network responses are an oracle function from URL to
a response record, and the event-loop effects of the client refresher are
recorded as an explicit event trace.
-/

/-- CONFIG.maxAgeMs of the batch script: one week in milliseconds. -/
def maxAgeMs : Int := 7 * 24 * 60 * 60 * 1000

/-- CONFIG.avatarSize of the batch script. -/
def avatarSize : Nat := 128

/-- CACHE_EXPIRATION of the client avatar service: one week in milliseconds. -/
def CACHE_EXPIRATION : Int := 7 * 24 * 60 * 60 * 1000

/-- The `dayMs` constant of `checkAndUpdateAvatars`: 24 hours in milliseconds. -/
def dayMs : Int := 24 * 60 * 60 * 1000

/-- AVATAR_DIR of the client avatar service. -/
def AVATAR_DIR : String := "/img/avatars"

/-- JS truthiness of an optional numeric field: `undefined` and `0` are falsy. -/
def jsTruthy : Option Int → Bool
  | none => false
  | some t => t != 0

/-- JS `x || now` for an optional numeric `x`: falsy (`undefined` or `0`) falls
back to `now`. -/
def jsOrNow : Option Int → Int → Int
  | none, now => now
  | some t, now => if t = 0 then now else t

/-- One entry of the `avatars` object of the metadata file:
`{ lastUpdated: ..., path: ... }`.  `lastUpdated` is optional because the
persisted JSON may lack the field (the code guards with `!avatarMeta.lastUpdated`). -/
structure AvatarMeta where
  lastUpdated : Option Int
  path : String
deriving Repr, DecidableEq

/-- Lookup in a JS-object-as-association-list. -/
def findEntry {α : Type} : List (String × α) → String → Option α
  | [], _ => none
  | (k, v) :: rest, key => if k = key then some v else findEntry rest key

/-- Assignment `obj[key] = v` on a JS-object-as-association-list. -/
def setEntry {α : Type} : List (String × α) → String → α → List (String × α)
  | [], key, v => [(key, v)]
  | (k, w) :: rest, key, v =>
    if k = key then (key, v) :: rest else (k, w) :: setEntry rest key v

/-- Deletion `fs.unlink` on a path-keyed association list. -/
def eraseEntry {α : Type} : List (String × α) → String → List (String × α)
  | [], _ => []
  | (k, w) :: rest, key =>
    if k = key then eraseEntry rest key else (k, w) :: eraseEntry rest key

/-- The server-side metadata file `{ lastRun, avatars }` of the batch script. -/
structure Metadata where
  lastRun : Int
  avatars : List (String × AvatarMeta)
deriving Repr, DecidableEq

/-- The assignment `metadata.avatars[githubId] = e` in the batch script. -/
def Metadata.setAvatar (m : Metadata) (githubId : String) (e : AvatarMeta) : Metadata :=
  { m with avatars := setEntry m.avatars githubId e }

/-- The avatar directory portion of the filesystem: path contents keyed by path. -/
abbrev Fs := List (String × String)

/-- `fs.existsSync` on the embedded filesystem. -/
def Fs.existsSync (fs : Fs) (p : String) : Bool := (findEntry fs p).isSome

/-- A completed `fs.createWriteStream` write of a whole body to a path. -/
def Fs.write (fs : Fs) (p : String) (contents : String) : Fs := setEntry fs p contents

/-- `fs.unlink` of a path (used to clean up after a failed write). -/
def Fs.unlink (fs : Fs) (p : String) : Fs := eraseEntry fs p

/-- `shouldDownloadAvatar(githubId, filePath)` of the batch script.  `fileExists`
is `fs.existsSync(filePath)` for the avatar's output path, evaluated against the
filesystem at decision time; `now` is `Date.now()`. -/
def shouldDownloadAvatar (force fileExists : Bool) (metadata : Metadata) (now : Int)
    (githubId : String) : Bool :=
  if force then true
  else if !fileExists then true
  else
    match findEntry metadata.avatars githubId with
    | none => true
    | some avatarMeta =>
      if !jsTruthy avatarMeta.lastUpdated then true
      else decide (now - avatarMeta.lastUpdated.getD 0 > maxAgeMs)

/-- What the remote host answers for one URL: either an HTTP response
(status, `Location` header, body, and whether streaming the body to disk
succeeds) or a transport-level failure (request error or timeout). -/
inductive NetResult where
  | response (statusCode : Nat) (location : Option String) (body : String) (writeOk : Bool)
  | requestError
deriving Repr, DecidableEq

/-- The rejection reasons of `downloadFile`.  `redirectNoLocation` is the
"Redirect with no location header" error; `httpStatus` the "status code" error;
`requestFailed` covers the request `error` event and the 10-second timeout;
`writeError` the file-stream error path; `redirectLimit` is the artificial
out-of-fuel result standing in for an unboundedly long redirect chain. -/
inductive DownloadError where
  | redirectNoLocation
  | httpStatus (code : Nat)
  | requestFailed
  | writeError
  | redirectLimit
deriving Repr, DecidableEq

/-- `downloadFile(url, outputPath)` of the batch script: follows 301/302
redirects via the `Location` header (bounded here by `fuel`), rejects a
redirect lacking the header, rejects a non-200 final status, streams the body
to `outputPath`, and unlinks the partially-written file if the stream errors. -/
def downloadFile (server : String → NetResult) : Nat → String → String → Fs →
    Except DownloadError Unit × Fs
  | fuel, url, outputPath, fs =>
    match server url with
    | .requestError => (.error .requestFailed, fs)
    | .response statusCode location body writeOk =>
      if statusCode = 301 ∨ statusCode = 302 then
        match location with
        | some target =>
          match fuel with
          | 0 => (.error .redirectLimit, fs)
          | n + 1 => downloadFile server n target outputPath fs
        | none => (.error .redirectNoLocation, fs)
      else if statusCode ≠ 200 then (.error (.httpStatus statusCode), fs)
      else if writeOk then (.ok (), Fs.write fs outputPath body)
      else (.error .writeError, Fs.unlink fs outputPath)

/-- The avatars directory of the batch script (`static/img/avatars`). -/
def avatarsDir : String := "static/img/avatars"

/-- `outputPath` for one githubId in `downloadAvatars`. -/
def avatarPath (githubId : String) : String := avatarsDir ++ "/" ++ githubId ++ ".png"

/-- `avatarUrl` for one githubId in `downloadAvatars`:
`https://github.com/$githubId.png?size=$CONFIG.avatarSize`. -/
def avatarUrl (githubId : String) : String :=
  "https://github.com/" ++ githubId ++ ".png?size=" ++ toString avatarSize

/-- Accumulated result of the per-key loop of `downloadAvatars`: the three
counters, the in-memory metadata object, the filesystem, and the list of
remote URLs requested. -/
structure RunAcc where
  downloaded : Nat
  skippedCount : Nat
  failed : Nat
  metadata : Metadata
  fs : Fs
  requests : List String
deriving Repr, DecidableEq

/-- The per-key loop of `downloadAvatars`.  `stale` is the per-key verdict of
`shouldDownloadAvatar`; in the source all verdicts are computed synchronously
in the `forEach` against the initial metadata and filesystem, before any
completion callback runs, so `stale` is a fixed function of the initial state.
A stale key is fetched with `downloadFile`; on success its metadata entry is
set to `{ lastUpdated: now, path: outputPath }` and `downloaded` is bumped, on
rejection `failed` is bumped; a fresh key bumps `skipped`. -/
def goReconcile (server : String → NetResult) (fuel : Nat) (now : Int)
    (stale : String → Bool) : List String → Metadata → Fs → RunAcc
  | [], m, f => ⟨0, 0, 0, m, f, []⟩
  | githubId :: rest, m, f =>
    if stale githubId then
      match (downloadFile server fuel (avatarUrl githubId) (avatarPath githubId) f).1 with
      | .ok _ =>
        let r := goReconcile server fuel now stale rest
          (m.setAvatar githubId ⟨some now, avatarPath githubId⟩)
          (downloadFile server fuel (avatarUrl githubId) (avatarPath githubId) f).2
        { r with downloaded := r.downloaded + 1, requests := avatarUrl githubId :: r.requests }
      | .error _ =>
        let r := goReconcile server fuel now stale rest m
          (downloadFile server fuel (avatarUrl githubId) (avatarPath githubId) f).2
        { r with failed := r.failed + 1, requests := avatarUrl githubId :: r.requests }
    else
      let r := goReconcile server fuel now stale rest m f
      { r with skippedCount := r.skippedCount + 1 }

/-- The summary printed by `downloadAvatars`: total processed, downloaded,
skipped (recent), failed. -/
structure Summary where
  total : Nat
  downloaded : Nat
  skipped : Nat
  failed : Nat
deriving Repr, DecidableEq

/-- Result of one batch run: the summary, the metadata object, the
filesystem, and the requested remote URLs. -/
structure BatchResult where
  summary : Summary
  metadata : Metadata
  fs : Fs
  requests : List String
deriving Repr, DecidableEq

/-- `downloadAvatars(githubIds)` of the batch script, with staleness verdicts
taken against the initial metadata and filesystem as in the source. -/
def downloadAvatars (server : String → NetResult) (fuel : Nat) (force : Bool) (now : Int)
    (githubIds : List String) (metadata : Metadata) (fs : Fs) : BatchResult :=
  let stale := fun githubId =>
    shouldDownloadAvatar force (fs.existsSync (avatarPath githubId)) metadata now githubId
  let acc := goReconcile server fuel now stale githubIds metadata fs
  ⟨⟨githubIds.length, acc.downloaded, acc.skippedCount, acc.failed⟩,
    acc.metadata, acc.fs, acc.requests⟩

/-- The whole cron script run: `downloadAvatars(...)` then
`metadata.lastRun = Date.now()` and persisting the metadata file. -/
def cronRun (server : String → NetResult) (fuel : Nat) (force : Bool) (now : Int)
    (githubIds : List String) (metadata : Metadata) (fs : Fs) : BatchResult :=
  let r := downloadAvatars server fuel force now githubIds metadata fs
  { r with metadata := { r.metadata with lastRun := now } }

/-- The client-session metadata stored under `avatar_metadata` in
localStorage: `{ avatars, lastCheck }`. -/
structure ClientMetadata where
  avatars : List (String × AvatarMeta)
  lastCheck : Int
deriving Repr, DecidableEq

/-- State visible to the client avatar service: the module-level
`updatesChecked` flag, the localStorage contents (`none` when the key is
absent or its JSON is unparsable), and whether `window` is defined. -/
structure ClientState where
  updatesChecked : Bool
  storage : Option ClientMetadata
  hasWindow : Bool
deriving Repr, DecidableEq

/-- `getMetadata()` of the client avatar service: the stored object, or the
default `{ avatars: {}, lastCheck: 0 }` outside a browser or when the stored
value is absent or unreadable. -/
def getMetadata (st : ClientState) : ClientMetadata :=
  if st.hasWindow then st.storage.getD ⟨[], 0⟩ else ⟨[], 0⟩

/-- `saveMetadata(metadata)` of the client avatar service: writes to
localStorage in a browser, does nothing otherwise. -/
def saveMetadata (st : ClientState) (m : ClientMetadata) : ClientState :=
  if st.hasWindow then { st with storage := some m } else st

/-- `needsRefresh(githubId)` of the client avatar service. -/
def needsRefresh (st : ClientState) (now : Int) (githubId : String) : Bool :=
  let metadata := getMetadata st
  match findEntry metadata.avatars githubId with
  | none => true
  | some avatar =>
    if !jsTruthy avatar.lastUpdated then true
    else decide (now - avatar.lastUpdated.getD 0 > CACHE_EXPIRATION)

/-- `getAvatarUrl(githubId)` of the client avatar service (the variant with
localStorage-backed cache busting): in a browser the URL carries
`?t=` followed by `metadata.avatars[githubId]?.lastUpdated || Date.now()`. -/
def getAvatarUrl (st : ClientState) (now : Int) (githubId : String) : String :=
  if st.hasWindow then
    let metadata := getMetadata st
    let timestamp := jsOrNow ((findEntry metadata.avatars githubId).bind AvatarMeta.lastUpdated) now
    AVATAR_DIR ++ "/" ++ githubId ++ ".png?t=" ++ toString timestamp
  else
    AVATAR_DIR ++ "/" ++ githubId ++ ".png"

/-- `getAvatarUrl(githubId)` of the plain AvatarService variant (no storage
context): always the bare path. -/
def getAvatarUrlPlain (githubId : String) : String :=
  AVATAR_DIR ++ "/" ++ githubId ++ ".png"

/-- The remote URL fetched by the client `downloadAvatar`:
`https://github.com/$githubId.png?size=128&t=$Date.now()`. -/
def clientAvatarFetchUrl (githubId : String) (now : Int) : String :=
  "https://github.com/" ++ githubId ++ ".png?size=128&t=" ++ toString now

/-- Externally observable actions of the client avatar service:
a `fetch` of a remote URL, a POST to the `/api/save-avatar` boundary,
and a metadata write to localStorage. -/
inductive ClientEvent where
  | remoteFetch (url : String)
  | savePost (githubId : String)
  | metaWrite (m : ClientMetadata)
deriving Repr, DecidableEq

/-- `downloadAvatar(githubId)` of the client avatar service.  `fetchOk`
abstracts whether the remote fetch responds ok, `saveOk` whether the save
boundary responds ok; the returned trace lists the network and storage
actions in order, and the returned Bool is the function's result. -/
def downloadAvatar (fetchOk saveOk : String → Bool) (now : Int) (st : ClientState)
    (githubId : String) : Bool × ClientState × List ClientEvent :=
  let url := clientAvatarFetchUrl githubId now
  if !fetchOk githubId then (false, st, [.remoteFetch url])
  else if !saveOk githubId then (false, st, [.remoteFetch url, .savePost githubId])
  else
    let metadata := getMetadata st
    let m2 : ClientMetadata :=
      { metadata with
        avatars := setEntry metadata.avatars githubId
          ⟨some now, AVATAR_DIR ++ "/" ++ githubId ++ ".png"⟩ }
    (true, saveMetadata st m2, [.remoteFetch url, .savePost githubId, .metaWrite m2])

/-- The deferred per-key loop inside `checkAndUpdateAvatars`: sequentially,
for each githubId, if `needsRefresh` (re-read from current storage) then
`downloadAvatar`; counts successful updates. -/
def refreshLoop (fetchOk saveOk : String → Bool) (now : Int) :
    List String → ClientState → ClientState × List ClientEvent × Nat
  | [], st => (st, [], 0)
  | githubId :: rest, st =>
    if needsRefresh st now githubId then
      let d := downloadAvatar fetchOk saveOk now st githubId
      let r := refreshLoop fetchOk saveOk now rest d.2.1
      (r.1, d.2.2 ++ r.2.1, if d.1 then r.2.2 + 1 else r.2.2)
    else refreshLoop fetchOk saveOk now rest st

/-- `checkAndUpdateAvatars(githubIds)` of the client avatar service, with the
deferred (`setTimeout`) work included at the end of the returned trace.  The
cooldown guard is the source's `metadata.lastCheck && (now - metadata.lastCheck
< dayMs)`, with JS truthiness of `lastCheck` kept explicit. -/
def checkAndUpdateAvatars (fetchOk saveOk : String → Bool) (now : Int)
    (githubIds : List String) (st : ClientState) : ClientState × List ClientEvent :=
  if st.updatesChecked || !st.hasWindow then (st, [])
  else
    let st1 := { st with updatesChecked := true }
    let metadata := getMetadata st1
    if jsTruthy (some metadata.lastCheck) && decide (now - metadata.lastCheck < dayMs) then
      (st1, [])
    else
      let m2 := { metadata with lastCheck := now }
      let st2 := saveMetadata st1 m2
      let r := refreshLoop fetchOk saveOk now githubIds st2
      (r.1, ClientEvent.metaWrite m2 :: r.2.1)

/-- Modelled from the spec: the Avatar URL Resolver exactly as the spec's
words describe it — `<avatarDir>/<key>.png` suffixed with the key's last
known refresh timestamp, falling back to the current time only when the key
has no recorded timestamp, when a client storage context is available; the
bare path otherwise.  Used only to compare the spec's words with
`getAvatarUrl` (claim C9). -/
def specResolveUrl (st : ClientState) (now : Int) (githubId : String) : String :=
  if st.hasWindow then
    AVATAR_DIR ++ "/" ++ githubId ++ ".png?t=" ++
      toString (((findEntry (getMetadata st).avatars githubId).bind AvatarMeta.lastUpdated).getD now)
  else
    AVATAR_DIR ++ "/" ++ githubId ++ ".png"

/-- Modelled from the spec: the remote URL the spec says the Remote Fetcher
requests for a key, `https://<host>/<key>.png?size=128` with no other query
parameters.  Used only to compare the spec's words with the embedded URL
constructions (claim C5). -/
def specRemoteUrl (githubId : String) : String :=
  "https://github.com/" ++ githubId ++ ".png?size=128"

/-! Helper lemmas about the association-list primitives. -/

theorem findEntry_setEntry_self {α : Type} (l : List (String × α)) (k : String) (v : α) :
    findEntry (setEntry l k v) k = some v := by
  induction l with
  | nil => simp [setEntry, findEntry]
  | cons hd tl ih =>
    obtain ⟨k', v'⟩ := hd
    by_cases h : k' = k
    · simp [setEntry, h, findEntry]
    · simp [setEntry, h, findEntry, ih]

theorem findEntry_setEntry_ne {α : Type} (l : List (String × α)) (k k' : String) (v : α)
    (h : k ≠ k') : findEntry (setEntry l k v) k' = findEntry l k' := by
  induction l with
  | nil => simp [setEntry, findEntry, h]
  | cons hd tl ih =>
    obtain ⟨a, b⟩ := hd
    by_cases ha : a = k
    · subst ha
      simp [setEntry, findEntry, h]
    · by_cases ha' : a = k'
      · subst ha'
        simp [setEntry, ha, findEntry]
      · simp [setEntry, ha, findEntry, ha', ih]

/-! Helper lemmas about `downloadFile`. -/

theorem downloadFile_unfold (server : String → NetResult) (fuel : Nat) (url p : String)
    (fs : Fs) :
    downloadFile server fuel url p fs =
      match server url with
      | .requestError => (.error .requestFailed, fs)
      | .response statusCode location body writeOk =>
        if statusCode = 301 ∨ statusCode = 302 then
          match location with
          | some target =>
            match fuel with
            | 0 => (.error .redirectLimit, fs)
            | n + 1 => downloadFile server n target p fs
          | none => (.error .redirectNoLocation, fs)
        else if statusCode ≠ 200 then (.error (.httpStatus statusCode), fs)
        else if writeOk then (.ok (), Fs.write fs p body)
        else (.error .writeError, Fs.unlink fs p) := by
  rw [downloadFile]

theorem downloadFile_fst_congr (server : String → NetResult) :
    ∀ (fuel : Nat) (url p : String) (f1 f2 : Fs),
    (downloadFile server fuel url p f1).1 = (downloadFile server fuel url p f2).1 := by
  intro fuel
  induction fuel with
  | zero =>
    intro url p f1 f2
    rw [downloadFile_unfold server 0 url p f1, downloadFile_unfold server 0 url p f2]
    cases server url with
    | requestError => rfl
    | response s loc b w =>
      by_cases h : s = 301 ∨ s = 302
      · cases loc <;> simp [h]
      · by_cases h2 : s = 200
        · cases w <;> simp [h, h2]
        · simp [h, h2]
  | succ n ih =>
    intro url p f1 f2
    rw [downloadFile_unfold server (n + 1) url p f1, downloadFile_unfold server (n + 1) url p f2]
    cases server url with
    | requestError => rfl
    | response s loc b w =>
      by_cases h : s = 301 ∨ s = 302
      · cases loc with
        | none => simp [h]
        | some target =>
          simpa [h] using ih target p f1 f2
      · by_cases h2 : s = 200
        · cases w <;> simp [h, h2]
        · simp [h, h2]

theorem downloadFile_ok_write (server : String → NetResult) :
    ∀ (fuel : Nat) (url p : String) (f : Fs) (u : Unit),
    (downloadFile server fuel url p f).1 = .ok u →
    ∃ b, (downloadFile server fuel url p f).2 = Fs.write f p b := by
  intro fuel
  induction fuel with
  | zero =>
    intro url p f u h
    rw [downloadFile_unfold] at h ⊢
    cases hs : server url with
    | requestError => rw [hs] at h; simp at h
    | response s loc b w =>
      rw [hs] at h
      by_cases hr : s = 301 ∨ s = 302
      · cases loc <;> simp [hr] at h
      · by_cases h2 : s = 200
        · cases w
          · simp [hr, h2] at h
          · exact ⟨b, by simp [hr, h2]⟩
        · simp [hr, h2] at h
  | succ n ih =>
    intro url p f u h
    rw [downloadFile_unfold] at h ⊢
    cases hs : server url with
    | requestError => rw [hs] at h; simp at h
    | response s loc b w =>
      rw [hs] at h
      by_cases hr : s = 301 ∨ s = 302
      · cases loc with
        | none => simp [hr] at h
        | some target =>
          simp only [hr, if_true] at h ⊢
          exact ih target p f u h
      · by_cases h2 : s = 200
        · cases w
          · simp [hr, h2] at h
          · exact ⟨b, by simp [hr, h2]⟩
        · simp [hr, h2] at h

theorem existsSync_write_self (f : Fs) (p b : String) :
    Fs.existsSync (Fs.write f p b) p = true := by
  simp [Fs.existsSync, Fs.write, findEntry_setEntry_self]

theorem existsSync_write_mono (f : Fs) (p b q : String) (h : Fs.existsSync f q = true) :
    Fs.existsSync (Fs.write f p b) q = true := by
  by_cases hp : p = q
  · subst hp; exact existsSync_write_self f p b
  · simpa [Fs.existsSync, Fs.write, findEntry_setEntry_ne _ _ _ _ hp] using h

/-! Helper lemmas about the per-key loop of `downloadAvatars`. -/

theorem goReconcile_cons_fresh (server : String → NetResult) (fuel : Nat) (now : Int)
    (stale : String → Bool) (githubId : String) (rest : List String) (m : Metadata) (f : Fs)
    (h : stale githubId = false) :
    goReconcile server fuel now stale (githubId :: rest) m f =
      { goReconcile server fuel now stale rest m f with
        skippedCount := (goReconcile server fuel now stale rest m f).skippedCount + 1 } := by
  simp [goReconcile, h]

theorem goReconcile_cons_ok (server : String → NetResult) (fuel : Nat) (now : Int)
    (stale : String → Bool) (githubId : String) (rest : List String) (m : Metadata) (f : Fs)
    (u : Unit) (h : stale githubId = true)
    (hdl : (downloadFile server fuel (avatarUrl githubId) (avatarPath githubId) f).1 = .ok u) :
    goReconcile server fuel now stale (githubId :: rest) m f =
      { goReconcile server fuel now stale rest
          (m.setAvatar githubId ⟨some now, avatarPath githubId⟩)
          (downloadFile server fuel (avatarUrl githubId) (avatarPath githubId) f).2 with
        downloaded := (goReconcile server fuel now stale rest
          (m.setAvatar githubId ⟨some now, avatarPath githubId⟩)
          (downloadFile server fuel (avatarUrl githubId) (avatarPath githubId) f).2).downloaded + 1,
        requests := avatarUrl githubId :: (goReconcile server fuel now stale rest
          (m.setAvatar githubId ⟨some now, avatarPath githubId⟩)
          (downloadFile server fuel (avatarUrl githubId) (avatarPath githubId) f).2).requests } := by
  simp only [goReconcile, h, if_true]
  rw [hdl]

theorem goReconcile_cons_err (server : String → NetResult) (fuel : Nat) (now : Int)
    (stale : String → Bool) (githubId : String) (rest : List String) (m : Metadata) (f : Fs)
    (e : DownloadError) (h : stale githubId = true)
    (hdl : (downloadFile server fuel (avatarUrl githubId) (avatarPath githubId) f).1 = .error e) :
    goReconcile server fuel now stale (githubId :: rest) m f =
      { goReconcile server fuel now stale rest m
          (downloadFile server fuel (avatarUrl githubId) (avatarPath githubId) f).2 with
        failed := (goReconcile server fuel now stale rest m
          (downloadFile server fuel (avatarUrl githubId) (avatarPath githubId) f).2).failed + 1,
        requests := avatarUrl githubId :: (goReconcile server fuel now stale rest m
          (downloadFile server fuel (avatarUrl githubId) (avatarPath githubId) f).2).requests } := by
  simp only [goReconcile, h, if_true]
  rw [hdl]

theorem goReconcile_counts (server : String → NetResult) (fuel : Nat) (now : Int)
    (stale : String → Bool) :
    ∀ (ids : List String) (m : Metadata) (f : Fs),
    (goReconcile server fuel now stale ids m f).downloaded +
      (goReconcile server fuel now stale ids m f).skippedCount +
      (goReconcile server fuel now stale ids m f).failed = ids.length := by
  intro ids
  induction ids with
  | nil => intro m f; rfl
  | cons githubId rest ih =>
    intro m f
    cases h : stale githubId with
    | false =>
      rw [goReconcile_cons_fresh server fuel now stale githubId rest m f h]
      have := ih m f
      simp only [List.length_cons]
      omega
    | true =>
      cases hdl : (downloadFile server fuel (avatarUrl githubId) (avatarPath githubId) f).1 with
      | ok u =>
        rw [goReconcile_cons_ok server fuel now stale githubId rest m f u h hdl]
        have := ih (m.setAvatar githubId ⟨some now, avatarPath githubId⟩)
          (downloadFile server fuel (avatarUrl githubId) (avatarPath githubId) f).2
        simp only [List.length_cons]
        omega
      | error e =>
        rw [goReconcile_cons_err server fuel now stale githubId rest m f e h hdl]
        have := ih m (downloadFile server fuel (avatarUrl githubId) (avatarPath githubId) f).2
        simp only [List.length_cons]
        omega

theorem goReconcile_fs_mono (server : String → NetResult) (fuel : Nat) (now : Int)
    (stale : String → Bool) :
    ∀ (ids : List String) (m : Metadata) (f : Fs) (q : String),
    (goReconcile server fuel now stale ids m f).failed = 0 →
    Fs.existsSync f q = true →
    Fs.existsSync (goReconcile server fuel now stale ids m f).fs q = true := by
  intro ids
  induction ids with
  | nil => intro m f q _ hq; exact hq
  | cons githubId rest ih =>
    intro m f q hfail hq
    cases h : stale githubId with
    | false =>
      rw [goReconcile_cons_fresh server fuel now stale githubId rest m f h] at hfail ⊢
      exact ih m f q hfail hq
    | true =>
      cases hdl : (downloadFile server fuel (avatarUrl githubId) (avatarPath githubId) f).1 with
      | ok u =>
        rw [goReconcile_cons_ok server fuel now stale githubId rest m f u h hdl] at hfail ⊢
        obtain ⟨b, hb⟩ := downloadFile_ok_write server fuel (avatarUrl githubId)
          (avatarPath githubId) f u hdl
        refine ih _ _ q hfail ?_
        rw [hb]
        exact existsSync_write_mono f (avatarPath githubId) b q hq
      | error e =>
        rw [goReconcile_cons_err server fuel now stale githubId rest m f e h hdl] at hfail
        simp at hfail

theorem goReconcile_find_of_not_stale (server : String → NetResult) (fuel : Nat) (now : Int)
    (stale : String → Bool) (githubId : String) (hid : stale githubId = false) :
    ∀ (ids : List String) (m : Metadata) (f : Fs),
    findEntry (goReconcile server fuel now stale ids m f).metadata.avatars githubId =
      findEntry m.avatars githubId := by
  intro ids
  induction ids with
  | nil => intro m f; rfl
  | cons j rest ih =>
    intro m f
    cases h : stale j with
    | false =>
      rw [goReconcile_cons_fresh server fuel now stale j rest m f h]
      exact ih m f
    | true =>
      have hne : j ≠ githubId := by
        intro he; rw [he, hid] at h; exact Bool.false_ne_true h
      cases hdl : (downloadFile server fuel (avatarUrl j) (avatarPath j) f).1 with
      | ok u =>
        rw [goReconcile_cons_ok server fuel now stale j rest m f u h hdl]
        rw [ih _ _]
        exact findEntry_setEntry_ne m.avatars j githubId _ hne
      | error e =>
        rw [goReconcile_cons_err server fuel now stale j rest m f e h hdl]
        exact ih m _

theorem goReconcile_find_preserved (server : String → NetResult) (fuel : Nat) (now : Int)
    (stale : String → Bool) (githubId : String) :
    ∀ (ids : List String) (m : Metadata) (f : Fs),
    findEntry m.avatars githubId = some ⟨some now, avatarPath githubId⟩ →
    findEntry (goReconcile server fuel now stale ids m f).metadata.avatars githubId =
      some ⟨some now, avatarPath githubId⟩ := by
  intro ids
  induction ids with
  | nil => intro m f hm; exact hm
  | cons j rest ih =>
    intro m f hm
    cases h : stale j with
    | false =>
      rw [goReconcile_cons_fresh server fuel now stale j rest m f h]
      exact ih m f hm
    | true =>
      cases hdl : (downloadFile server fuel (avatarUrl j) (avatarPath j) f).1 with
      | ok u =>
        rw [goReconcile_cons_ok server fuel now stale j rest m f u h hdl]
        refine ih _ _ ?_
        by_cases hj : j = githubId
        · subst hj
          exact findEntry_setEntry_self m.avatars j _
        · rw [Metadata.setAvatar]
          simpa [findEntry_setEntry_ne m.avatars j githubId _ hj] using hm
      | error e =>
        rw [goReconcile_cons_err server fuel now stale j rest m f e h hdl]
        exact ih m _ hm

theorem goReconcile_find_of_stale (server : String → NetResult) (fuel : Nat) (now : Int)
    (stale : String → Bool) (githubId : String) (hid : stale githubId = true) :
    ∀ (ids : List String) (m : Metadata) (f : Fs),
    githubId ∈ ids →
    (goReconcile server fuel now stale ids m f).failed = 0 →
    findEntry (goReconcile server fuel now stale ids m f).metadata.avatars githubId =
      some ⟨some now, avatarPath githubId⟩ := by
  intro ids
  induction ids with
  | nil => intro m f hmem; exact absurd hmem (List.not_mem_nil githubId)
  | cons j rest ih =>
    intro m f hmem hfail
    cases h : stale j with
    | false =>
      have hne : githubId ≠ j := by
        intro he
        rw [he, h] at hid
        exact Bool.false_ne_true hid
      rw [goReconcile_cons_fresh server fuel now stale j rest m f h] at hfail ⊢
      have hmem' : githubId ∈ rest := by
        rcases List.mem_cons.mp hmem with he | hm
        · exact absurd he hne
        · exact hm
      exact ih m f hmem' hfail
    | true =>
      cases hdl : (downloadFile server fuel (avatarUrl j) (avatarPath j) f).1 with
      | ok u =>
        rw [goReconcile_cons_ok server fuel now stale j rest m f u h hdl] at hfail ⊢
        by_cases hj : j = githubId
        · subst hj
          exact goReconcile_find_preserved server fuel now stale j rest _ _
            (findEntry_setEntry_self m.avatars j _)
        · have hmem' : githubId ∈ rest := by
            rcases List.mem_cons.mp hmem with he | hm
            · exact absurd he.symm hj
            · exact hm
          exact ih _ _ hmem' hfail
      | error e =>
        rw [goReconcile_cons_err server fuel now stale j rest m f e h hdl] at hfail
        simp at hfail

theorem goReconcile_exists_of_stale (server : String → NetResult) (fuel : Nat) (now : Int)
    (stale : String → Bool) (githubId : String) :
    ∀ (ids : List String) (m : Metadata) (f : Fs),
    githubId ∈ ids →
    stale githubId = true →
    (goReconcile server fuel now stale ids m f).failed = 0 →
    Fs.existsSync (goReconcile server fuel now stale ids m f).fs (avatarPath githubId) = true := by
  intro ids
  induction ids with
  | nil => intro m f hmem; exact absurd hmem (List.not_mem_nil githubId)
  | cons j rest ih =>
    intro m f hmem hid hfail
    cases h : stale j with
    | false =>
      have hne : githubId ≠ j := by
        intro he
        rw [he, h] at hid
        exact Bool.false_ne_true hid
      rw [goReconcile_cons_fresh server fuel now stale j rest m f h] at hfail ⊢
      have hmem' : githubId ∈ rest := by
        rcases List.mem_cons.mp hmem with he | hm
        · exact absurd he hne
        · exact hm
      exact ih m f hmem' hid hfail
    | true =>
      cases hdl : (downloadFile server fuel (avatarUrl j) (avatarPath j) f).1 with
      | ok u =>
        rw [goReconcile_cons_ok server fuel now stale j rest m f u h hdl] at hfail ⊢
        obtain ⟨b, hb⟩ := downloadFile_ok_write server fuel (avatarUrl j) (avatarPath j) f u hdl
        by_cases hj : j = githubId
        · subst hj
          refine goReconcile_fs_mono server fuel now stale rest _ _ _ hfail ?_
          rw [hb]
          exact existsSync_write_self f (avatarPath j) b
        · have hmem' : githubId ∈ rest := by
            rcases List.mem_cons.mp hmem with he | hm
            · exact absurd he.symm hj
            · exact hm
          exact ih _ _ hmem' hid hfail
      | error e =>
        rw [goReconcile_cons_err server fuel now stale j rest m f e h hdl] at hfail
        simp at hfail

theorem goReconcile_all_fresh (server : String → NetResult) (fuel : Nat) (now : Int)
    (stale : String → Bool) :
    ∀ (ids : List String) (m : Metadata) (f : Fs),
    (∀ githubId ∈ ids, stale githubId = false) →
    goReconcile server fuel now stale ids m f = ⟨0, ids.length, 0, m, f, []⟩ := by
  intro ids
  induction ids with
  | nil => intro m f _; rfl
  | cons j rest ih =>
    intro m f hall
    rw [goReconcile_cons_fresh server fuel now stale j rest m f
      (hall j (List.mem_cons_self j rest))]
    rw [ih m f fun g hg => hall g (List.mem_cons_of_mem j hg)]
    simp

theorem goReconcile_requests (server : String → NetResult) (fuel : Nat) (now : Int)
    (stale : String → Bool) :
    ∀ (ids : List String) (m : Metadata) (f : Fs) (u : String),
    u ∈ (goReconcile server fuel now stale ids m f).requests →
    ∃ githubId, githubId ∈ ids ∧ u = avatarUrl githubId := by
  intro ids
  induction ids with
  | nil =>
    intro m f u hu
    exact absurd hu (List.not_mem_nil u)
  | cons j rest ih =>
    intro m f u hu
    cases h : stale j with
    | false =>
      rw [goReconcile_cons_fresh server fuel now stale j rest m f h] at hu
      obtain ⟨g, hg, hgu⟩ := ih m f u hu
      exact ⟨g, List.mem_cons_of_mem j hg, hgu⟩
    | true =>
      cases hdl : (downloadFile server fuel (avatarUrl j) (avatarPath j) f).1 with
      | ok v =>
        rw [goReconcile_cons_ok server fuel now stale j rest m f v h hdl] at hu
        rcases List.mem_cons.mp hu with he | hm
        · exact ⟨j, List.mem_cons_self j rest, he⟩
        · obtain ⟨g, hg, hgu⟩ := ih _ _ u hm
          exact ⟨g, List.mem_cons_of_mem j hg, hgu⟩
      | error e =>
        rw [goReconcile_cons_err server fuel now stale j rest m f e h hdl] at hu
        rcases List.mem_cons.mp hu with he | hm
        · exact ⟨j, List.mem_cons_self j rest, he⟩
        · obtain ⟨g, hg, hgu⟩ := ih _ _ u hm
          exact ⟨g, List.mem_cons_of_mem j hg, hgu⟩

/-! Helper lemmas about the client avatar service. -/

theorem saveMetadata_flag (st : ClientState) (m : ClientMetadata) :
    (saveMetadata st m).updatesChecked = st.updatesChecked := by
  unfold saveMetadata
  split <;> rfl

theorem downloadAvatar_flag (fetchOk saveOk : String → Bool) (now : Int) (st : ClientState)
    (githubId : String) :
    (downloadAvatar fetchOk saveOk now st githubId).2.1.updatesChecked = st.updatesChecked := by
  cases hf : fetchOk githubId with
  | false => simp [downloadAvatar, hf]
  | true =>
    cases hs : saveOk githubId with
    | false => simp [downloadAvatar, hf, hs]
    | true => simp [downloadAvatar, hf, hs, saveMetadata_flag]

theorem refreshLoop_flag (fetchOk saveOk : String → Bool) (now : Int) :
    ∀ (ids : List String) (st : ClientState),
    (refreshLoop fetchOk saveOk now ids st).1.updatesChecked = st.updatesChecked := by
  intro ids
  induction ids with
  | nil => intro st; rfl
  | cons j rest ih =>
    intro st
    by_cases h : needsRefresh st now j
    · simp only [refreshLoop, h, if_true]
      rw [ih _, downloadAvatar_flag]
    · simp only [refreshLoop, h, if_false]
      exact ih st

/-! Helper lemmas about `shouldDownloadAvatar`. -/

theorem shouldDownloadAvatar_none (fileExists : Bool) (metadata : Metadata) (now : Int)
    (githubId : String) (h : findEntry metadata.avatars githubId = none) :
    shouldDownloadAvatar false fileExists metadata now githubId = true := by
  cases fileExists <;> simp [shouldDownloadAvatar, h]

theorem shouldDownloadAvatar_fresh (metadata : Metadata) (now : Int) (githubId : String)
    (e : AvatarMeta) (t : Int) (hfind : findEntry metadata.avatars githubId = some e)
    (ht : e.lastUpdated = some t) (htz : t ≠ 0) (hage : ¬(now - t > maxAgeMs)) :
    shouldDownloadAvatar false true metadata now githubId = false := by
  simp [shouldDownloadAvatar, hfind, ht, jsTruthy, htz, hage]

theorem shouldDownloadAvatar_false_inv (fileExists : Bool) (metadata : Metadata) (now : Int)
    (githubId : String)
    (h : shouldDownloadAvatar false fileExists metadata now githubId = false) :
    fileExists = true ∧ ∃ e t, findEntry metadata.avatars githubId = some e ∧
      e.lastUpdated = some t ∧ t ≠ 0 ∧ ¬(now - t > maxAgeMs) := by
  cases fileExists with
  | false => simp [shouldDownloadAvatar] at h
  | true =>
    refine ⟨rfl, ?_⟩
    unfold shouldDownloadAvatar at h
    simp only [Bool.false_eq_true, if_false, Bool.not_true, if_true] at h
    cases hf : findEntry metadata.avatars githubId with
    | none => rw [hf] at h; simp at h
    | some e =>
      rw [hf] at h
      have h' : (if (!jsTruthy e.lastUpdated) = true then true
          else decide (now - e.lastUpdated.getD 0 > maxAgeMs)) = false := h
      cases hl : e.lastUpdated with
      | none => rw [hl] at h'; simp [jsTruthy] at h'
      | some t =>
        rw [hl] at h'
        by_cases hz : t = 0
        · rw [hz] at h'; simp [jsTruthy] at h'
        · refine ⟨e, t, rfl, hl, hz, ?_⟩
          simpa [jsTruthy, hz] using h'

theorem shouldDownloadAvatar_lastRun (force fileExists : Bool) (metadata : Metadata)
    (x now : Int) (githubId : String) :
    shouldDownloadAvatar force fileExists { metadata with lastRun := x } now githubId =
      shouldDownloadAvatar force fileExists metadata now githubId := rfl

/-! The claims. -/

/-- C10: summary counting invariant of the Batch Reconciler: for every roster,
initial metadata, filesystem and remote behaviour, every roster key is counted
in exactly one of the downloaded/skipped/failed counters, so
downloaded + skipped + failed equals the roster length (= total). -/
theorem claim10_summary_partition (server : String → NetResult) (fuel : Nat) (force : Bool)
    (now : Int) (githubIds : List String) (metadata : Metadata) (fs : Fs) :
    (downloadAvatars server fuel force now githubIds metadata fs).summary.downloaded +
      (downloadAvatars server fuel force now githubIds metadata fs).summary.skipped +
      (downloadAvatars server fuel force now githubIds metadata fs).summary.failed =
      githubIds.length ∧
    (downloadAvatars server fuel force now githubIds metadata fs).summary.total =
      githubIds.length := by
  exact ⟨goReconcile_counts server fuel now _ githubIds metadata fs, rfl⟩

/-- C6: when the remote host answers a 301 or 302 without a Location header,
`downloadFile` rejects with the redirect error and returns the filesystem
unchanged: the destination file is not created and no partially written file
is left at the destination path. -/
theorem claim6_redirect_no_location (server : String → NetResult) (fuel : Nat)
    (url outputPath : String) (fs : Fs) (statusCode : Nat) (body : String) (writeOk : Bool)
    (hresp : server url = .response statusCode none body writeOk)
    (hcode : statusCode = 301 ∨ statusCode = 302) :
    downloadFile server fuel url outputPath fs = (.error .redirectNoLocation, fs) := by
  rw [downloadFile_unfold, hresp]
  simp [hcode]

/-- Witness for C6: a concrete 302 answer with no Location header on an empty
filesystem rejects and leaves the filesystem empty. -/
theorem claim6_redirect_no_location_witness :
    downloadFile (fun _ => .response 302 none "img-bytes" true) 5
      "https://github.com/alice.png?size=128" "static/img/avatars/alice.png" [] =
      (.error .redirectNoLocation, ([] : Fs)) :=
  claim6_redirect_no_location (fun _ => .response 302 none "img-bytes" true) 5
    "https://github.com/alice.png?size=128" "static/img/avatars/alice.png" []
    302 "img-bytes" true rfl (Or.inr rfl)

/-- C4: both staleness variants report stale when the metadata entry for the
key is absent or lacks a lastUpdated field, for any current time; and the
batch variant additionally reports stale whenever the cached file is absent
from the filesystem, regardless of the metadata entry. -/
theorem claim4_absent_means_stale (metadata : Metadata) (st : ClientState) (now : Int)
    (githubId : String) (force fileExists : Bool) :
    (findEntry metadata.avatars githubId = none →
      shouldDownloadAvatar force fileExists metadata now githubId = true) ∧
    (∀ e : AvatarMeta, findEntry metadata.avatars githubId = some e → e.lastUpdated = none →
      shouldDownloadAvatar force fileExists metadata now githubId = true) ∧
    shouldDownloadAvatar force false metadata now githubId = true ∧
    (findEntry (getMetadata st).avatars githubId = none →
      needsRefresh st now githubId = true) ∧
    (∀ e : AvatarMeta, findEntry (getMetadata st).avatars githubId = some e →
      e.lastUpdated = none → needsRefresh st now githubId = true) := by
  refine ⟨?_, ?_, ?_, ?_, ?_⟩
  · intro h
    cases force <;> cases fileExists <;> simp [shouldDownloadAvatar, h]
  · intro e he hl
    cases force <;> cases fileExists <;> simp [shouldDownloadAvatar, he, hl, jsTruthy]
  · cases force <;> simp [shouldDownloadAvatar]
  · intro h
    simp [needsRefresh, h]
  · intro e he hl
    simp [needsRefresh, he, hl, jsTruthy]

/-- Witness for C4: with empty metadata on both sides, both variants report
stale for a concrete key and time. -/
theorem claim4_absent_means_stale_witness :
    shouldDownloadAvatar false true ⟨0, []⟩ 5 "alice" = true ∧
    needsRefresh ⟨false, some ⟨[], 0⟩, true⟩ 5 "alice" = true :=
  ⟨(claim4_absent_means_stale ⟨0, []⟩ ⟨false, some ⟨[], 0⟩, true⟩ 5 "alice" false true).1 rfl,
   (claim4_absent_means_stale ⟨0, []⟩ ⟨false, some ⟨[], 0⟩, true⟩ 5 "alice" false true).2.2.2.1 rfl⟩

/-- C3 fails as stated: with a present entry whose lastUpdated is 0 and, for
the batch variant, an existing file, at now = 0 the age 0 does not exceed the
TTL, yet both variants report stale — the JS falsy check treats the stored 0
timestamp as missing. -/
theorem claim3_ttl_iff_counterexample :
    shouldDownloadAvatar false true
      ⟨0, [("alice", ⟨some 0, "static/img/avatars/alice.png"⟩)]⟩ 0 "alice" = true ∧
    needsRefresh ⟨false, some ⟨[("alice", ⟨some 0, "/img/avatars/alice.png"⟩)], 0⟩, true⟩
      0 "alice" = true ∧
    ¬((0 : Int) - 0 > maxAgeMs) ∧ ¬((0 : Int) - 0 > CACHE_EXPIRATION) := by
  decide

/-- C3 amended: for a present entry whose lastUpdated is present and nonzero
(and, in the batch variant, an existing file), with force=false the staleness
verdict of both variants is exactly "now - lastUpdated strictly exceeds the
7-day TTL"; in particular it is false when the age is at most the TTL. -/
theorem claim3_ttl_iff_amended (metadata : Metadata) (st : ClientState) (githubId : String)
    (e e' : AvatarMeta) (t t' now : Int)
    (hb : findEntry metadata.avatars githubId = some e) (hbt : e.lastUpdated = some t)
    (hbz : t ≠ 0)
    (hc : findEntry (getMetadata st).avatars githubId = some e')
    (hct : e'.lastUpdated = some t') (hcz : t' ≠ 0) :
    shouldDownloadAvatar false true metadata now githubId = decide (now - t > maxAgeMs) ∧
    needsRefresh st now githubId = decide (now - t' > CACHE_EXPIRATION) := by
  constructor
  · simp [shouldDownloadAvatar, hb, hbt, jsTruthy, hbz]
  · simp [needsRefresh, hc, hct, jsTruthy, hcz]

/-- Witness for C3 amended: concrete fresh entries on both sides. -/
theorem claim3_ttl_iff_amended_witness :
    shouldDownloadAvatar false true ⟨0, [("alice", ⟨some 3, "p"⟩)]⟩ 10 "alice" =
      decide ((10 : Int) - 3 > maxAgeMs) ∧
    needsRefresh ⟨false, some ⟨[("alice", ⟨some 4, "q"⟩)], 0⟩, true⟩ 10 "alice" =
      decide ((10 : Int) - 4 > CACHE_EXPIRATION) :=
  claim3_ttl_iff_amended ⟨0, [("alice", ⟨some 3, "p"⟩)]⟩
    ⟨false, some ⟨[("alice", ⟨some 4, "q"⟩)], 0⟩, true⟩ "alice"
    ⟨some 3, "p"⟩ ⟨some 4, "q"⟩ 3 4 10 rfl rfl (by decide) rfl rfl (by decide)

/-! String-append helper lemmas for the URL claims. -/

theorem avatarUrl_eq_spec (githubId : String) : avatarUrl githubId = specRemoteUrl githubId := by
  rw [avatarUrl, specRemoteUrl,
    String.append_assoc ("https://github.com/" ++ githubId) ".png?size=" (toString avatarSize)]
  rfl

theorem clientAvatarFetchUrl_eq_spec (githubId : String) (now : Int) :
    clientAvatarFetchUrl githubId now = specRemoteUrl githubId ++ "&t=" ++ toString now := by
  rw [clientAvatarFetchUrl, specRemoteUrl,
    String.append_assoc ("https://github.com/" ++ githubId) ".png?size=128" "&t="]
  rfl

/-- C5 fails as stated: the client variant does issue a remote request for the
key, but at the URL carrying an extra cache-busting `t` query parameter, not
at the bare `?size=128` URL the claim requires of both variants. -/
theorem claim5_remote_url_counterexample :
    (downloadAvatar (fun _ => true) (fun _ => true) 7 ⟨false, none, true⟩ "alice").2.2 =
      [ClientEvent.remoteFetch "https://github.com/alice.png?size=128&t=7",
       ClientEvent.savePost "alice",
       ClientEvent.metaWrite ⟨[("alice", ⟨some 7, "/img/avatars/alice.png"⟩)], 0⟩] ∧
    ClientEvent.remoteFetch (specRemoteUrl "alice") ∉
      (downloadAvatar (fun _ => true) (fun _ => true) 7 ⟨false, none, true⟩ "alice").2.2 := by
  decide

/-- C5 amended: every remote URL the batch reconciler requests is exactly
`https://github.com/<key>.png?size=128` for some roster key, while the client
fetcher's first observable action is a fetch of that URL with an additional
`&t=<now>` cache-busting parameter. -/
theorem claim5_remote_url_amended :
    (∀ (server : String → NetResult) (fuel : Nat) (force : Bool) (now : Int)
      (githubIds : List String) (metadata : Metadata) (fs : Fs) (u : String),
      u ∈ (downloadAvatars server fuel force now githubIds metadata fs).requests →
      ∃ githubId, githubId ∈ githubIds ∧ u = specRemoteUrl githubId) ∧
    (∀ (fetchOk saveOk : String → Bool) (now : Int) (st : ClientState) (githubId : String),
      (downloadAvatar fetchOk saveOk now st githubId).2.2.head? =
        some (ClientEvent.remoteFetch (specRemoteUrl githubId ++ "&t=" ++ toString now))) := by
  constructor
  · intro server fuel force now ids metadata fs u hu
    obtain ⟨g, hg, hgu⟩ := goReconcile_requests server fuel now _ ids metadata fs u hu
    exact ⟨g, hg, by rw [hgu, avatarUrl_eq_spec]⟩
  · intro fetchOk saveOk now st githubId
    rw [← clientAvatarFetchUrl_eq_spec]
    cases hf : fetchOk githubId with
    | false => simp [downloadAvatar, hf]
    | true =>
      cases hs : saveOk githubId with
      | false => simp [downloadAvatar, hf, hs]
      | true => simp [downloadAvatar, hf, hs]

/-- Witness for C5 amended: a forced one-key batch run requests exactly the
bare `?size=128` URL. -/
theorem claim5_remote_url_amended_witness :
    ∃ githubId, githubId ∈ ["alice"] ∧ avatarUrl "alice" = specRemoteUrl githubId :=
  claim5_remote_url_amended.1 (fun _ => .response 200 none "img-bytes" true) 1 true 5 ["alice"]
    ⟨0, []⟩ [] (avatarUrl "alice") (by decide)

/-- C9 fails as stated: for a key whose recorded lastUpdated is 0 the resolver
falls back to the current time (JS `||` treats the stored 0 as missing)
instead of using the recorded timestamp as the claim requires. -/
theorem claim9_resolver_counterexample :
    getAvatarUrl ⟨false, some ⟨[("alice", ⟨some 0, "/img/avatars/alice.png"⟩)], 0⟩, true⟩
        7 "alice" = "/img/avatars/alice.png?t=7" ∧
    getAvatarUrl ⟨false, some ⟨[("alice", ⟨some 0, "/img/avatars/alice.png"⟩)], 0⟩, true⟩
        7 "alice" ≠
      specResolveUrl ⟨false, some ⟨[("alice", ⟨some 0, "/img/avatars/alice.png"⟩)], 0⟩, true⟩
        7 "alice" := by
  decide

/-- C9 amended: with a client storage context the resolver returns
`<avatarDir>/<key>.png?t=<ts>`, where `<ts>` is the key's recorded timestamp
when it is present and nonzero and the current time otherwise (a recorded 0 is
treated as missing); without a storage context, and in the plain variant, it
returns the bare `<avatarDir>/<key>.png`.  It is total, unknown keys included. -/
theorem claim9_resolver_amended (st : ClientState) (now : Int) (githubId : String) :
    (st.hasWindow = true → ∀ t : Int,
      (findEntry (getMetadata st).avatars githubId).bind AvatarMeta.lastUpdated = some t →
      t ≠ 0 →
      getAvatarUrl st now githubId =
        AVATAR_DIR ++ "/" ++ githubId ++ ".png?t=" ++ toString t) ∧
    (st.hasWindow = true →
      ((findEntry (getMetadata st).avatars githubId).bind AvatarMeta.lastUpdated = none ∨
       (findEntry (getMetadata st).avatars githubId).bind AvatarMeta.lastUpdated = some 0) →
      getAvatarUrl st now githubId =
        AVATAR_DIR ++ "/" ++ githubId ++ ".png?t=" ++ toString now) ∧
    (st.hasWindow = false →
      getAvatarUrl st now githubId = AVATAR_DIR ++ "/" ++ githubId ++ ".png") ∧
    getAvatarUrlPlain githubId = AVATAR_DIR ++ "/" ++ githubId ++ ".png" := by
  refine ⟨?_, ?_, ?_, rfl⟩
  · intro hw t ht hz
    simp [getAvatarUrl, hw, ht, jsOrNow, hz]
  · intro hw hcase
    rcases hcase with h | h <;> simp [getAvatarUrl, hw, h, jsOrNow]
  · intro hw
    simp [getAvatarUrl, hw]

/-- Witness for C9 amended: a concrete stored nonzero timestamp is used as the
cache-busting parameter. -/
theorem claim9_resolver_amended_witness :
    getAvatarUrl ⟨false, some ⟨[("bob", ⟨some 3, "x"⟩)], 0⟩, true⟩ 9 "bob" =
      AVATAR_DIR ++ "/" ++ "bob" ++ ".png?t=" ++ toString (3 : Int) :=
  (claim9_resolver_amended ⟨false, some ⟨[("bob", ⟨some 3, "x"⟩)], 0⟩, true⟩ 9 "bob").1
    rfl 3 rfl (by decide)

/-! Helper lemmas about `checkAndUpdateAvatars`. -/

theorem getMetadata_flag (st : ClientState) (b : Bool) :
    getMetadata { st with updatesChecked := b } = getMetadata st := rfl

theorem checkAndUpdateAvatars_noop (fetchOk saveOk : String → Bool) (now : Int)
    (githubIds : List String) (st : ClientState) (h : st.updatesChecked = true) :
    checkAndUpdateAvatars fetchOk saveOk now githubIds st = (st, []) := by
  unfold checkAndUpdateAvatars
  simp [h]

theorem checkAndUpdateAvatars_sets_flag (fetchOk saveOk : String → Bool) (now : Int)
    (githubIds : List String) (st : ClientState) (hw : st.hasWindow = true) :
    (checkAndUpdateAvatars fetchOk saveOk now githubIds st).1.updatesChecked = true := by
  unfold checkAndUpdateAvatars
  cases hchk : st.updatesChecked with
  | true => simp [hchk]
  | false =>
    simp only [hchk, hw, Bool.not_true, Bool.false_or, Bool.false_eq_true, if_false]
    split
    · rfl
    · rw [refreshLoop_flag, saveMetadata_flag]

/-- C8: within one browser session, after any first invocation of
`checkAndUpdateAvatars` the session flag is set, and every subsequent
invocation — with any roster, time and network behaviour — returns the state
unchanged and an empty action trace: no network calls and no metadata writes. -/
theorem claim8_session_idempotence (fetchOk saveOk : String → Bool) (now : Int)
    (githubIds : List String) (st : ClientState) (hw : st.hasWindow = true)
    (fetchOk2 saveOk2 : String → Bool) (now2 : Int) (githubIds2 : List String) :
    checkAndUpdateAvatars fetchOk2 saveOk2 now2 githubIds2
      (checkAndUpdateAvatars fetchOk saveOk now githubIds st).1 =
      ((checkAndUpdateAvatars fetchOk saveOk now githubIds st).1, []) :=
  checkAndUpdateAvatars_noop fetchOk2 saveOk2 now2 githubIds2 _
    (checkAndUpdateAvatars_sets_flag fetchOk saveOk now githubIds st hw)

/-- Witness for C8: a concrete second invocation in the same session is a
no-op. -/
theorem claim8_session_idempotence_witness :
    checkAndUpdateAvatars (fun _ => true) (fun _ => true) 6 ["bob"]
      (checkAndUpdateAvatars (fun _ => true) (fun _ => true) 5 ["alice"]
        ⟨false, none, true⟩).1 =
      ((checkAndUpdateAvatars (fun _ => true) (fun _ => true) 5 ["alice"]
        ⟨false, none, true⟩).1, []) :=
  claim8_session_idempotence (fun _ => true) (fun _ => true) 5 ["alice"] ⟨false, none, true⟩
    rfl (fun _ => true) (fun _ => true) 6 ["bob"]

/-- C7 fails as stated: with stored lastClientCheck = 0 and now = 1000 the
stored timestamp lies within the past 24 hours, yet the call is not a no-op:
it rewrites the session metadata and performs a remote fetch, because the JS
`&&` guard treats the stored 0 as "never checked". -/
theorem claim7_cooldown_counterexample :
    ((0 : Int) ≤ 1000 - 0 ∧ (1000 : Int) - 0 < dayMs) ∧
    ClientEvent.remoteFetch "https://github.com/alice.png?size=128&t=1000" ∈
      (checkAndUpdateAvatars (fun _ => true) (fun _ => true) 1000 ["alice"]
        ⟨false, some ⟨[], 0⟩, true⟩).2 ∧
    (checkAndUpdateAvatars (fun _ => true) (fun _ => true) 1000 ["alice"]
        ⟨false, some ⟨[], 0⟩, true⟩).1.storage ≠ some ⟨[], 0⟩ := by
  decide



/-- C7 amended (browser context, first invocation of the session): when the
stored lastClientCheck is nonzero and now - lastClientCheck < 24h — the
source's cooldown guard, which treats a stored 0 as "never checked" and also
short-circuits on future timestamps — the call performs no network activity
and changes nothing except the session flag; otherwise the new lastClientCheck
is written to session metadata as the very first recorded action, before any
fetch or save request. -/
theorem claim7_cooldown_amended (fetchOk saveOk : String → Bool) (now : Int)
    (githubIds : List String) (st : ClientState)
    (hflag : st.updatesChecked = false) (hw : st.hasWindow = true) :
    ((getMetadata st).lastCheck ≠ 0 ∧ now - (getMetadata st).lastCheck < dayMs →
      checkAndUpdateAvatars fetchOk saveOk now githubIds st =
        ({ st with updatesChecked := true }, [])) ∧
    (¬((getMetadata st).lastCheck ≠ 0 ∧ now - (getMetadata st).lastCheck < dayMs) →
      ∃ evs, (checkAndUpdateAvatars fetchOk saveOk now githubIds st).2 =
        ClientEvent.metaWrite { getMetadata st with lastCheck := now } :: evs) := by
  have hguard : (st.updatesChecked || !st.hasWindow) = false := by rw [hflag, hw]; rfl
  constructor
  · rintro ⟨h1, h2⟩
    have hcond : (jsTruthy (some (getMetadata st).lastCheck) &&
        decide (now - (getMetadata st).lastCheck < dayMs)) = true := by
      simp only [jsTruthy, Bool.and_eq_true, bne_iff_ne, decide_eq_true_eq]
      exact ⟨h1, h2⟩
    unfold checkAndUpdateAvatars
    rw [hguard]
    simp only [Bool.false_eq_true, if_false, getMetadata_flag]
    rw [if_pos hcond]
  · intro hneg
    have hcond : ¬((jsTruthy (some (getMetadata st).lastCheck) &&
        decide (now - (getMetadata st).lastCheck < dayMs)) = true) := by
      intro hc
      apply hneg
      simpa [jsTruthy, Bool.and_eq_true, bne_iff_ne, decide_eq_true_eq] using hc
    unfold checkAndUpdateAvatars
    rw [hguard]
    simp only [Bool.false_eq_true, if_false, getMetadata_flag]
    rw [if_neg hcond]
    exact ⟨_, rfl⟩

/-- Witness for C7 amended: a concrete recent nonzero lastClientCheck makes
the call a pure no-op apart from the session flag. -/
theorem claim7_cooldown_amended_witness :
    checkAndUpdateAvatars (fun _ => true) (fun _ => true) 10 ["alice"]
      ⟨false, some ⟨[], 5⟩, true⟩ = (⟨true, some ⟨[], 5⟩, true⟩, []) :=
  (claim7_cooldown_amended (fun _ => true) (fun _ => true) 10 ["alice"]
    ⟨false, some ⟨[], 5⟩, true⟩ rfl rfl).1 ⟨by decide, by decide⟩

/-- C1: running the batch reconciler on roster ["alice", "bob"] with empty
initial metadata and force = false, when both remote fetches succeed, yields
the summary (total 2, downloaded 2, skipped 0, failed 0), and the persisted
metadata afterwards contains entries for both keys whose lastUpdated equals
the run's current time. -/
theorem claim1_two_key_scenario (server : String → NetResult) (fuel : Nat) (now : Int) (fs : Fs)
    (hA : (downloadFile server fuel (avatarUrl "alice") (avatarPath "alice") fs).1 = .ok ())
    (hB : (downloadFile server fuel (avatarUrl "bob") (avatarPath "bob") fs).1 = .ok ()) :
    (cronRun server fuel false now ["alice", "bob"] ⟨0, []⟩ fs).summary = ⟨2, 2, 0, 0⟩ ∧
    findEntry (cronRun server fuel false now ["alice", "bob"] ⟨0, []⟩ fs).metadata.avatars
      "alice" = some ⟨some now, avatarPath "alice"⟩ ∧
    findEntry (cronRun server fuel false now ["alice", "bob"] ⟨0, []⟩ fs).metadata.avatars
      "bob" = some ⟨some now, avatarPath "bob"⟩ := by
  have hsa : shouldDownloadAvatar false (fs.existsSync (avatarPath "alice"))
      (⟨0, []⟩ : Metadata) now "alice" = true :=
    shouldDownloadAvatar_none _ _ _ _ rfl
  have hsb : shouldDownloadAvatar false (fs.existsSync (avatarPath "bob"))
      (⟨0, []⟩ : Metadata) now "bob" = true :=
    shouldDownloadAvatar_none _ _ _ _ rfl
  have hB1 : (downloadFile server fuel (avatarUrl "bob") (avatarPath "bob")
      (downloadFile server fuel (avatarUrl "alice") (avatarPath "alice") fs).2).1 = .ok () :=
    (downloadFile_fst_congr server fuel (avatarUrl "bob") (avatarPath "bob") _ fs).trans hB
  simp only [cronRun, downloadAvatars]
  rw [goReconcile_cons_ok server fuel now
      (fun githubId =>
        shouldDownloadAvatar false (fs.existsSync (avatarPath githubId)) ⟨0, []⟩ now githubId)
      "alice" ["bob"] ⟨0, []⟩ fs () hsa hA]
  rw [goReconcile_cons_ok server fuel now
      (fun githubId =>
        shouldDownloadAvatar false (fs.existsSync (avatarPath githubId)) ⟨0, []⟩ now githubId)
      "bob" [] (Metadata.setAvatar ⟨0, []⟩ "alice" ⟨some now, avatarPath "alice"⟩)
      (downloadFile server fuel (avatarUrl "alice") (avatarPath "alice") fs).2 () hsb hB1]
  refine ⟨rfl, ?_, ?_⟩
  · have h1 : findEntry (setEntry (setEntry ([] : List (String × AvatarMeta)) "alice"
        ⟨some now, avatarPath "alice"⟩) "bob" ⟨some now, avatarPath "bob"⟩) "alice" =
        some (⟨some now, avatarPath "alice"⟩ : AvatarMeta) := by
      rw [findEntry_setEntry_ne _ "bob" "alice" _ (by decide), findEntry_setEntry_self]
    exact h1
  · have h2 : findEntry (setEntry (setEntry ([] : List (String × AvatarMeta)) "alice"
        ⟨some now, avatarPath "alice"⟩) "bob" ⟨some now, avatarPath "bob"⟩) "bob" =
        some (⟨some now, avatarPath "bob"⟩ : AvatarMeta) := by
      rw [findEntry_setEntry_self]
    exact h2

/-- Witness for C1: a concrete always-200 remote host on an empty filesystem. -/
theorem claim1_two_key_scenario_witness :
    (cronRun (fun _ => .response 200 none "img-bytes" true) 1 false 5 ["alice", "bob"]
      ⟨0, []⟩ []).summary = ⟨2, 2, 0, 0⟩ ∧
    findEntry (cronRun (fun _ => .response 200 none "img-bytes" true) 1 false 5
      ["alice", "bob"] ⟨0, []⟩ []).metadata.avatars "alice" =
      some ⟨some 5, avatarPath "alice"⟩ ∧
    findEntry (cronRun (fun _ => .response 200 none "img-bytes" true) 1 false 5
      ["alice", "bob"] ⟨0, []⟩ []).metadata.avatars "bob" =
      some ⟨some 5, avatarPath "bob"⟩ :=
  claim1_two_key_scenario (fun _ => .response 200 none "img-bytes" true) 1 5 [] rfl rfl

/-- C2 fails as stated: a successful run at timestamp 0 records lastUpdated 0,
which the staleness check's JS falsy guard treats as "never updated", so the
immediately following second run downloads the key again (downloaded = 1, not
0). -/
theorem claim2_idempotence_counterexample :
    (cronRun (fun _ => NetResult.response 200 none "img-bytes" true) 1 false 0 ["alice"]
      ⟨0, []⟩ []).summary.failed = 0 ∧
    (cronRun (fun _ => NetResult.response 200 none "img-bytes" true) 1 false 0 ["alice"]
      (cronRun (fun _ => NetResult.response 200 none "img-bytes" true) 1 false 0 ["alice"]
        ⟨0, []⟩ []).metadata
      (cronRun (fun _ => NetResult.response 200 none "img-bytes" true) 1 false 0 ["alice"]
        ⟨0, []⟩ []).fs).summary.downloaded = 1 := by
  decide

/-- C2 amended: for every roster, initial metadata and filesystem, if a
force=false batch run whose timestamp `now` is nonzero ends with failed = 0
(every attempted fetch succeeded), then an immediately following force=false
run on the persisted state — with any remote behaviour — downloads nothing:
its summary is (total = roster length, downloaded = 0, skipped = roster
length, failed = 0). -/
theorem claim2_idempotence_amended (server server2 : String → NetResult) (fuel fuel2 : Nat)
    (now : Int) (hnz : now ≠ 0) (githubIds : List String) (metadata : Metadata) (fs : Fs)
    (hfail : (cronRun server fuel false now githubIds metadata fs).summary.failed = 0) :
    (cronRun server2 fuel2 false now githubIds
        (cronRun server fuel false now githubIds metadata fs).metadata
        (cronRun server fuel false now githubIds metadata fs).fs).summary =
      ⟨githubIds.length, 0, githubIds.length, 0⟩ := by
  have hfail1 : (goReconcile server fuel now
      (fun githubId =>
        shouldDownloadAvatar false (fs.existsSync (avatarPath githubId)) metadata now githubId)
      githubIds metadata fs).failed = 0 := hfail
  have hall : ∀ githubId ∈ githubIds,
      shouldDownloadAvatar false
        ((goReconcile server fuel now
          (fun githubId =>
            shouldDownloadAvatar false (fs.existsSync (avatarPath githubId)) metadata now
              githubId)
          githubIds metadata fs).fs.existsSync (avatarPath githubId))
        { (goReconcile server fuel now
            (fun githubId =>
              shouldDownloadAvatar false (fs.existsSync (avatarPath githubId)) metadata now
                githubId)
            githubIds metadata fs).metadata with lastRun := now } now githubId = false := by
    intro githubId hid
    rw [shouldDownloadAvatar_lastRun]
    cases h1 : shouldDownloadAvatar false (fs.existsSync (avatarPath githubId)) metadata now
        githubId with
    | true =>
      have hm := goReconcile_find_of_stale server fuel now
        (fun githubId =>
          shouldDownloadAvatar false (fs.existsSync (avatarPath githubId)) metadata now githubId)
        githubId h1 githubIds metadata fs hid hfail1
      have hx := goReconcile_exists_of_stale server fuel now
        (fun githubId =>
          shouldDownloadAvatar false (fs.existsSync (avatarPath githubId)) metadata now githubId)
        githubId githubIds metadata fs hid h1 hfail1
      rw [hx]
      exact shouldDownloadAvatar_fresh _ now githubId ⟨some now, avatarPath githubId⟩ now hm rfl
        hnz (by rw [sub_self]; decide)
    | false =>
      obtain ⟨hfe, e, t, hfind, ht, htz, hage⟩ :=
        shouldDownloadAvatar_false_inv (fs.existsSync (avatarPath githubId)) metadata now
          githubId h1
      have hfe2 := goReconcile_fs_mono server fuel now
        (fun githubId =>
          shouldDownloadAvatar false (fs.existsSync (avatarPath githubId)) metadata now githubId)
        githubIds metadata fs (avatarPath githubId) hfail1 hfe
      rw [hfe2]
      have hfind2 := goReconcile_find_of_not_stale server fuel now
        (fun githubId =>
          shouldDownloadAvatar false (fs.existsSync (avatarPath githubId)) metadata now githubId)
        githubId h1 githubIds metadata fs
      exact shouldDownloadAvatar_fresh _ now githubId e t (hfind2.trans hfind) ht htz hage
  simp only [cronRun, downloadAvatars]
  rw [goReconcile_all_fresh server2 fuel2 now _ githubIds _ _ hall]

/-- Witness for C2 amended: a concrete successful run at a nonzero time makes
the immediate second run skip everything. -/
theorem claim2_idempotence_amended_witness :
    (cronRun (fun _ => NetResult.response 200 none "img-bytes" true) 1 false 5 ["alice"]
      (cronRun (fun _ => NetResult.response 200 none "img-bytes" true) 1 false 5 ["alice"]
        ⟨0, []⟩ []).metadata
      (cronRun (fun _ => NetResult.response 200 none "img-bytes" true) 1 false 5 ["alice"]
        ⟨0, []⟩ []).fs).summary = ⟨1, 0, 1, 0⟩ :=
  claim2_idempotence_amended (fun _ => NetResult.response 200 none "img-bytes" true)
    (fun _ => NetResult.response 200 none "img-bytes" true) 1 1 5 (by decide) ["alice"]
    ⟨0, []⟩ [] (by decide)
